import Mathlib

/-!
Verification of the retrieval-augmented query pipeline of the chatbot
repository: a shallow embedding of `app/services/synthesis.py`,
`app/services/search.py` and `app/services/vector_store.py`, followed by
theorems settling the specification claims about them.

Conventions of the embedding:
* Python dictionaries with optional keys become structures with `Option`
  fields; `d.get(k, default)` becomes `Option.getD`.
* Python floats become `ℚ` (the similarity arithmetic used by the code is
  plain subtraction and comparison, faithfully mirrored on rationals).
* Python exceptions become `Except String`; a `try/except` block becomes a
  `match` on the `Except` value.
* The external language model invocation is abstracted as an oracle argument
  (`LLMResp`): it either raises, returns `None`, or returns a string.
* `sorted(..., key=sim, reverse=True)` (CPython: stable, descending) is
  `List.mergeSort` with `le a b := sim b ≤ sim a`, which is likewise the
  stable descending sort.
-/

namespace Chatbot

/-! ### Pure string helpers shared by `format_response` (`synthesis.py`, lines 27-54)

The Python code uses `re`; each regular-expression operation is realised
here as an explicit character-list scan with the same semantics.  Functions
whose recursion is not structural take a fuel argument; callers always pass
the length of the scanned list, which bounds the number of steps.
-/

/-- Python `\s` for the ASCII whitespace characters (the only ones the
repository's strings contain). -/
def isPySpace (c : Char) : Bool :=
  c = ' ' ∨ c = '\t' ∨ c = '\n' ∨ c = '\r' ∨ c = '\x0b' ∨ c = '\x0c'

/-- Does the character end a sentence for the split `(?<=[.!?])\s+`? -/
def isSentEnd (c : Char) : Bool :=
  c = '.' ∨ c = '!' ∨ c = '?'

/-- Is `pat` an initial segment of `s`? -/
def isStartOf : List Char → List Char → Bool
  | [], _ => true
  | _ :: _, [] => false
  | p :: ps, c :: cs => p = c && isStartOf ps cs

/-- Does `hay` contain `needle` as a contiguous run of characters? -/
def containsRun (needle : List Char) : List Char → Bool
  | [] => isStartOf needle []
  | c :: cs => isStartOf needle (c :: cs) || containsRun needle cs

/-- Does the string `hay` contain the string `needle`? -/
def strContains (hay needle : String) : Bool :=
  containsRun needle.data hay.data

/-- After an opening `<think>` tag, drop everything up to and including the
first `</think>`; `none` when no closing tag follows (the regular
expression then has no match starting at this tag). -/
def dropToCloseThink (fuel : ℕ) (s : List Char) : Option (List Char) :=
  match fuel, s with
  | 0, _ => none
  | _, [] => none
  | fuel + 1, c :: cs =>
    if isStartOf "</think>".data (c :: cs) then some ((c :: cs).drop 8)
    else dropToCloseThink fuel cs

/-- `re.sub(r"<think>.*?</think>", "", text, flags=re.DOTALL)`: remove each
non-overlapping minimal `<think>…</think>` span, scanning left to right. -/
def removeThink (fuel : ℕ) (s : List Char) : List Char :=
  match fuel, s with
  | 0, s => s
  | fuel + 1, [] => []
  | fuel + 1, c :: cs =>
    if isStartOf "<think>".data (c :: cs) then
      match dropToCloseThink (cs.length) ((c :: cs).drop 7) with
      | some rest => removeThink fuel rest
      | none => c :: removeThink fuel cs
    else c :: removeThink fuel cs

/-- `re.split(r'(?<=[.!?])\s+', text)`: split at each maximal whitespace run
whose immediately preceding character is `.`, `!` or `?`.  `acc` holds the
current segment reversed; its head is the previously scanned character. -/
def splitSentences (fuel : ℕ) (acc : List Char) (s : List Char) :
    List (List Char) :=
  match fuel, s with
  | 0, s => [acc.reverse ++ s]
  | fuel + 1, [] => [acc.reverse]
  | fuel + 1, c :: cs =>
    if isPySpace c && (match acc with
        | p :: _ => isSentEnd p
        | [] => false) then
      acc.reverse :: splitSentences fuel [] ((c :: cs).dropWhile isPySpace)
    else
      splitSentences fuel (c :: acc) cs

/-- Python `str.strip()`. -/
def pyStrip (s : List Char) : List Char :=
  ((s.dropWhile isPySpace).reverse.dropWhile isPySpace).reverse

/-- `re.sub(r'(?<!\n)•', '\n•', s)`: put a newline before every bullet not
already preceded by one; `prev` is the previously scanned original
character. -/
def bulletOnNewLine (prev : Option Char) : List Char → List Char
  | [] => []
  | c :: cs =>
    if c = '•' ∧ prev ≠ some '\n' then
      '\n' :: '•' :: bulletOnNewLine (some c) cs
    else
      c :: bulletOnNewLine (some c) cs

/-- Python `s.split('\n')` (keeps empty lines). -/
def splitLines : List Char → List (List Char)
  | [] => [[]]
  | c :: cs =>
    let r := splitLines cs
    if c = '\n' then [] :: r
    else
      match r with
      | l :: ls => (c :: l) :: ls
      | [] => [[c]]

/-- `f'- {line.lstrip("- ")}' if not line.startswith('-') and line else line` -/
def bulletLine (line : List Char) : List Char :=
  if (match line with | c :: _ => c != '-' | [] => false) then
    '-' :: ' ' :: line.dropWhile (fun c => c = '-' ∨ c = ' ')
  else line

/-- `re.sub(r'\n{3,}', '\n\n', s)`: collapse each run of three or more
newlines to exactly two. -/
def collapseNewlines (fuel : ℕ) (s : List Char) : List Char :=
  match fuel, s with
  | 0, s => s
  | fuel + 1, [] => []
  | fuel + 1, c :: cs =>
    if c = '\n' then
      let run := 1 + (cs.takeWhile (fun d => d = '\n')).length
      let rest := cs.dropWhile (fun d => d = '\n')
      (if run ≥ 3 then ['\n', '\n'] else List.replicate run '\n')
        ++ collapseNewlines fuel rest
    else c :: collapseNewlines fuel cs

/-- `format_response` (`synthesis.py`, lines 27-54): remove `<think>`
blocks, split into sentences, one sentence per line, bullets on their own
lines, a `- ` marker on every non-empty line, collapse long newline runs,
strip the ends. -/
def format_response (text : String) : String :=
  if text = "" then text
  else
    let t1 := removeThink text.data.length text.data
    let sentences := (splitSentences t1.length [] t1).map pyStrip
    let sentences := sentences.filter (fun s => ¬ s.isEmpty)
    let formatted := List.intercalate ['\n'] sentences
    let f2 := bulletOnNewLine none formatted
    let joined := List.intercalate ['\n'] ((splitLines f2).map bulletLine)
    String.mk (pyStrip (collapseNewlines joined.length joined))

/-! ### Data model of `summarize_themes` (`synthesis.py`, lines 56-157)

A search result is a Python dictionary; the keys the function reads are
`content` and `meta` (with `meta.similarity` and `meta.source`), always
through `.get` with a default, so each becomes an `Option` field.
-/

/-- The `meta` sub-dictionary of a search result. -/
structure MetaC where
  similarity : Option ℚ
  source : Option String
deriving DecidableEq, Repr

/-- A search result as consumed by `summarize_themes` (`ChunkType`). -/
structure Chunk where
  content : Option String
  meta : Option MetaC
deriving DecidableEq, Repr

/-- One element of the `sources` list of the returned dictionary. -/
structure SrcEntry where
  source : String
  similarity : ℚ
deriving DecidableEq, Repr

/-- The dictionary returned by `summarize_themes`: `sources` is
`Option`-valued because the success path of the code stores Python `None`
there (line 146), while every other path stores a list. -/
structure Outcome where
  answer : String
  sources : Option (List SrcEntry)
deriving DecidableEq, Repr

/-- Behaviour of the external GROQ chat-completion call: it raises, or
returns a message whose `content` is `None` or a string. -/
inductive LLMResp where
  | raise (msg : String)
  | ok (content : Option String)
deriving DecidableEq, Repr

/-- `chunk.get('meta', {}).get('similarity', 0)`. -/
def simOf (c : Chunk) : ℚ :=
  match c.meta with
  | none => 0
  | some m => m.similarity.getD 0

/-- `chunk.get('content', '')`. -/
def contentOf (c : Chunk) : String :=
  c.content.getD ""

/-- `chunk.get("meta", {}).get("source", "unknown")`. -/
def srcOf (c : Chunk) : String :=
  match c.meta with
  | none => "unknown"
  | some m => m.source.getD "unknown"

/-- The adaptive similarity threshold (`synthesis.py`, lines 74-77). -/
def similarityThreshold (results : List Chunk) : ℚ :=
  if results.length > 10 then 0.35 else 0.2

/-- `top_n = 10` (`synthesis.py`, line 78). -/
def top_n : ℕ := 10

/-- `[r for r in results if r.get('meta', {}).get('similarity', 0) >= similarity_threshold]`. -/
def filteredResults (results : List Chunk) : List Chunk :=
  results.filter (fun r => decide (similarityThreshold results ≤ simOf r))

/-- `sorted(filtered_results, key=..., reverse=True)`: CPython's sort is
stable and `reverse=True` keeps equal keys in original order, which is
exactly `mergeSort` with `le a b := sim b ≤ sim a`. -/
def sortedResults (results : List Chunk) : List Chunk :=
  (filteredResults results).mergeSort (fun a b => decide (simOf b ≤ simOf a))

/-- Estimated token cost of one fragment:
`max(len(content) // 4, 1)` (`synthesis.py`, line 93).  A fragment is its
list of code points (Python `len` and slicing count code points). -/
def estTokens (s : List Char) : ℕ :=
  max (s.length / 4) 1

/-- Total estimated token cost of a list of fragments. -/
def sumEst (parts : List (List Char)) : ℕ :=
  (parts.map estTokens).sum

/-- The context-packing loop (`synthesis.py`, lines 88-105): `total` is the
running `total_tokens`; the result is the final `context_parts`.
`content[:max_chars]` is `List.take`. -/
def packParts (maxTokens : ℕ) : List (List Char) → ℕ → List (List Char)
  | [], _ => []
  | c :: rest, total =>
    let chunkTokens := estTokens c
    if total + chunkTokens > maxTokens then
      let remaining := maxTokens - total
      if remaining > 0 then [c.take (remaining * 4)] else []
    else
      c :: packParts maxTokens rest (total + chunkTokens)

/-- The fragment texts fed to the packing loop: contents of the top
`top_n` survivors in rank order (`sorted_results[:top_n]`). -/
def packInput (results : List Chunk) : List (List Char) :=
  ((sortedResults results).take top_n).map (fun c => (contentOf c).data)

/-- The `context_parts` list assembled by `summarize_themes`. -/
def contextParts (results : List Chunk) (maxTokens : ℕ) : List (List Char) :=
  packParts maxTokens (packInput results) 0

/-- `used_sources` (`synthesis.py`, lines 110-113). -/
def usedSources (results : List Chunk) : List SrcEntry :=
  ((sortedResults results).take top_n).map (fun c => ⟨srcOf c, simOf c⟩)

/-- The body of `summarize_themes` inside the outer `try` (`synthesis.py`,
lines 70-153).  The inner `try/except` around the completion call is the
`match` on the oracle; `Except.error` would model an exception escaping to
the outer handler, which no branch of the body produces. -/
def summarizeBody (results : List Chunk) (_query : String) (maxTokens : ℕ)
    (llm : LLMResp) : Except String Outcome :=
  if results.isEmpty then
    .ok ⟨"No relevant information found.", some []⟩
  else if (filteredResults results).isEmpty then
    .ok ⟨"No relevant information found above similarity threshold.", some []⟩
  else if (contextParts results maxTokens).isEmpty then
    .ok ⟨"Could not process any of the search results.", some []⟩
  else
    match llm with
    | .raise _ =>
      if ¬ (contextParts results maxTokens).isEmpty then
        .ok ⟨format_response "API Error. Here's the most relevant excerpt.",
             some (usedSources results)⟩
      else
        .ok ⟨"Error generating response and no fallback content available.",
             some []⟩
    | .ok none =>
      .ok ⟨"Error: No response generated", some (usedSources results)⟩
    | .ok (some answer) => .ok ⟨format_response answer, none⟩

/-- The outer `except Exception as e` handler (`synthesis.py`, lines
155-157). -/
def summarizeCatchAll (r : Except String Outcome) : Outcome :=
  match r with
  | .ok o => o
  | .error e => ⟨"Error generating summary: " ++ e, some []⟩

/-- `summarize_themes` (`synthesis.py`, lines 56-157). -/
def summarize_themes (results : List Chunk) (query : String)
    (maxTokens : ℕ) (llm : LLMResp) : Outcome :=
  summarizeCatchAll (summarizeBody results query maxTokens llm)

/-- The API-error marker the fallback answer must contain. -/
def apiErrorMarker : String := "API Error"

/-- The fallback answer text built on model failure (`synthesis.py`,
line 152). -/
def apiFallbackAnswer : String :=
  format_response "API Error. Here's the most relevant excerpt."

/-- The message of the dead `else` branch of the model-failure handler
(`synthesis.py`, line 153). -/
def noFallbackMsg : String :=
  "Error generating response and no fallback content available."

/-- The message returned when packing yields no content (`synthesis.py`,
line 107). -/
def couldNotProcessMsg : String :=
  "Could not process any of the search results."

/-! ### The retriever (`search.py`, lines 13-70) -/

/-- Metadata stored with a record, as read by `search.py`. -/
structure RawMeta where
  source : Option String
  chunk_index : Option ℕ
  total_chunks : Option ℕ
deriving DecidableEq, Repr

/-- Modelled from the spec: one element of the sequence produced by
`query_similar_chunks`, the Vector Store query that `search.py` imports
from `vector_store` but that is absent from the source tree (only its
caller exists).  Per the spec the store query returns a ranked sequence of
`(content, metadata, similarity)` records and an empty sequence — not an
error — when nothing matches; the record fields are the ones `search.py`
reads (`content`, `metadata.source`, `metadata.chunk_index`,
`metadata.total_chunks`, `similarity`). -/
structure RawResult where
  content : String
  metadata : RawMeta
  similarity : ℚ
deriving DecidableEq, Repr

/-- A formatted result built by `search.py` (lines 54-62). -/
structure FmtMeta where
  source : String
  similarity : ℚ
  chunk_index : ℕ
  total_chunks : ℕ
deriving DecidableEq, Repr

/-- A result as returned by `search.py`. -/
structure FmtResult where
  content : String
  meta : FmtMeta
deriving DecidableEq, Repr

/-- `search_similar` returns a list of results, or the error dictionary
built by its `except` handler. -/
inductive SearchOut where
  | results (rs : List FmtResult)
  | error (msg : String)
deriving DecidableEq, Repr

/-- Python `str.lower()`, character-wise on the code points. -/
def pyLower (s : String) : List Char :=
  s.data.map Char.toLower

/-- The source filter predicate (`search.py`, line 38):
`r.get("metadata", {}).get("source", "").lower() == source.lower()`. -/
def sourceMatches (s : String) (r : RawResult) : Bool :=
  pyLower (r.metadata.source.getD "") == pyLower s

/-- `[r for r in results if ...]` for a provided source (`search.py`,
lines 36-39). -/
def filterBySource (rs : List RawResult) (s : String) : List RawResult :=
  rs.filter (sourceMatches s)

/-- The dedup loop of `search.py` (lines 41-49): `seen` is the set of
contents already kept. -/
def dedupGo (seen : List String) : List RawResult → List RawResult
  | [] => []
  | r :: rest =>
    if r.content ∈ seen then dedupGo seen rest
    else r :: dedupGo (r.content :: seen) rest

/-- Deduplicate by exact content, keeping the first occurrence. -/
def dedupByContent (rs : List RawResult) : List RawResult :=
  dedupGo [] rs

/-- Formatting of one result (`search.py`, lines 54-62). -/
def formatResult (r : RawResult) : FmtResult :=
  ⟨r.content,
   ⟨r.metadata.source.getD "unknown", r.similarity,
    r.metadata.chunk_index.getD 0, r.metadata.total_chunks.getD 1⟩⟩

/-- `search_similar` (`search.py`, lines 13-70).  `storeResults` is the
value of `query_similar_chunks(query, n_results=n_results)`, the
spec-modelled Vector Store query (see `RawResult`); `query` and
`n_results` are otherwise unused by the function body.  A `source` of
`none` is Python `None`; `if source:` is falsy for both `None` and the
empty string. -/
def search_similar (_query : String) (source : Option String)
    (_n_results : ℕ) (storeResults : List RawResult) : SearchOut :=
  if storeResults.isEmpty then .results []
  else
    let results :=
      match source with
      | some s => if s ≠ "" then filterBySource storeResults s
                  else storeResults
      | none => storeResults
    .results ((dedupByContent results).map formatResult)

/-! ### The store-level search (`vector_store.py`, lines 154-233) -/

/-- A metadata entry of the ChromaDB response: `none` models a value that
is not a dictionary (line 212 replaces it by `{}`). -/
structure VSMeta where
  source : Option String
deriving DecidableEq, Repr

/-- The dictionary returned by `collection.query`, with the three keys the
code reads; each may be absent (`None`). -/
structure VSResponse where
  documents : Option (List (List String))
  distances : Option (List (List ℚ))
  metadatas : Option (List (List (Option VSMeta)))
deriving DecidableEq, Repr

/-- One store-level result (`vector_store.py`, lines 215-221). -/
structure VSResult where
  content : String
  source : String
  similarity : ℚ
deriving DecidableEq, Repr

/-- Return type of `vector_store.search_similar`: a list or the error
dictionary. -/
inductive VSOut where
  | results (rs : List VSResult)
  | error (msg : String)
deriving DecidableEq, Repr

/-- The value `metadatas[i] if i < len(metadatas) else {}` with the
non-dictionary guard of line 212. -/
def metaAt (metas : List (Option VSMeta)) (i : ℕ) : VSMeta :=
  match metas[i]? with
  | some (some m) => m
  | some none => ⟨none⟩
  | none => ⟨none⟩

/-- The result-building loop (`vector_store.py`, lines 202-222), at index
`i`.  `1.0 - distances[i] if distances else 0.0` raises `IndexError` when
`distances` is non-empty but shorter than the documents, which the outer
handler turns into an error dictionary; hence `Except`. -/
def buildResults (dists : List ℚ) (metas : List (Option VSMeta)) :
    List String → ℕ → Except String (List VSResult)
  | [], _ => .ok []
  | doc :: rest, i =>
    if dists.isEmpty then
      match buildResults dists metas rest (i + 1) with
      | .error e => .error e
      | .ok restList =>
        .ok (⟨doc, (metaAt metas i).source.getD "unknown", 0⟩ :: restList)
    else
      match dists[i]? with
      | none => .error "list index out of range"
      | some d =>
        match buildResults dists metas rest (i + 1) with
        | .error e => .error e
        | .ok restList =>
          .ok (⟨doc, (metaAt metas i).source.getD "unknown", 1 - d⟩ :: restList)

/-- `search_similar` of `vector_store.py` (lines 154-233).  `resp` is the
value of `collection.query(...)`; `none` models a falsy or non-dictionary
response.  The final sort (line 229) is CPython's stable descending sort. -/
def vsSearchSimilar (resp : Option VSResponse) : VSOut :=
  match resp with
  | none => .error "Search failed: no results returned"
  | some r =>
    match r.documents with
    | none => .error "No matching documents found"
    | some [] => .error "No matching documents found"
    | some (docs0 :: _) =>
      if docs0.isEmpty then .error "No matching documents found"
      else
        let distances :=
          match r.distances with
          | some (d :: _) => d
          | some [] => []
          | none => []
        let metadatas :=
          match r.metadatas with
          | some (m :: _) => m
          | some [] => []
          | none => []
        match buildResults distances metadatas docs0 0 with
        | .error e => .error ("Search failed: " ++ e)
        | .ok resultsList =>
          if resultsList.isEmpty then
            .error "No relevant content found for the query."
          else
            .results (resultsList.mergeSort
              (fun a b => decide (b.similarity ≤ a.similarity)))

/-! ### Properties of the packing loop -/

theorem sumEst_nil : sumEst [] = 0 := rfl

theorem sumEst_cons (c : List Char) (l : List (List Char)) :
    sumEst (c :: l) = estTokens c + sumEst l := by
  simp [sumEst]

theorem sumEst_append (l₁ l₂ : List (List Char)) :
    sumEst (l₁ ++ l₂) = sumEst l₁ + sumEst l₂ := by
  simp [sumEst]

/-- When a fragment does not fit and the remaining budget `r` is positive,
its text is strictly longer than the `r * 4` characters kept. -/
theorem trunc_lt_length {c : List Char} {r : ℕ} (h1 : r < estTokens c)
    (h2 : 0 < r) : r * 4 < c.length := by
  unfold estTokens at h1
  have h3 : r < c.length / 4 := by omega
  have h4 : (r + 1) * 4 ≤ c.length :=
    (Nat.le_div_iff_mul_le (by norm_num)).1 h3
  omega

/-- The truncated fragment costs exactly the remaining budget. -/
theorem estTokens_take {c : List Char} {r : ℕ} (h1 : r < estTokens c)
    (h2 : 0 < r) : estTokens (c.take (r * 4)) = r := by
  have h4 := trunc_lt_length h1 h2
  unfold estTokens
  rw [List.length_take]
  omega

/-- Budget invariant of the packing loop: starting from a running total
that is within budget, it stays within budget. -/
theorem packParts_est_le (T : ℕ) :
    ∀ (cs : List (List Char)) (total : ℕ), total ≤ T →
      total + sumEst (packParts T cs total) ≤ T := by
  intro cs
  induction cs with
  | nil => intro total h; simpa [packParts, sumEst] using h
  | cons c rest ih =>
    intro total h
    simp only [packParts]
    by_cases hgt : total + estTokens c > T
    · simp only [if_pos hgt]
      by_cases hr : T - total > 0
      · simp only [if_pos hr]
        have hest : estTokens (c.take ((T - total) * 4)) = T - total :=
          estTokens_take (by omega) hr
        rw [sumEst_cons, sumEst_nil, hest]
        omega
      · simp only [if_neg hr]
        simpa [sumEst] using h
    · simp only [if_neg hgt]
      have := ih (total + estTokens c) (by omega)
      simp only [sumEst_cons]
      omega

/-- Shape of the packing loop's output: it is the first `n` fragments
taken whole — either all of them, or the budget is exactly exhausted — or
those `n` fragments followed by a strict initial segment of fragment
`n + 1` that exactly fills the remaining budget. -/
theorem packParts_shape (T : ℕ) :
    ∀ (cs : List (List Char)) (total : ℕ), total ≤ T →
      ∃ n, n ≤ cs.length ∧
        ((packParts T cs total = cs.take n ∧
            (n = cs.length ∨ total + sumEst (cs.take n) = T))
         ∨ (∃ c, cs[n]? = some c ∧
              0 < T - (total + sumEst (cs.take n)) ∧
              packParts T cs total =
                cs.take n ++ [c.take ((T - (total + sumEst (cs.take n))) * 4)] ∧
              (T - (total + sumEst (cs.take n))) * 4 < c.length ∧
              estTokens (c.take ((T - (total + sumEst (cs.take n))) * 4)) =
                T - (total + sumEst (cs.take n)))) := by
  intro cs
  induction cs with
  | nil =>
    intro total h
    exact ⟨0, Nat.le_refl 0, Or.inl ⟨by simp [packParts], Or.inl rfl⟩⟩
  | cons c rest ih =>
    intro total h
    by_cases hgt : total + estTokens c > T
    · by_cases hr : T - total > 0
      · refine ⟨0, Nat.zero_le _, Or.inr ⟨c, ?_, ?_, ?_, ?_, ?_⟩⟩
        · simp
        · simpa [sumEst] using hr
        · simp only [packParts, if_pos hgt, if_pos hr]
          simp [sumEst]
        · simpa [sumEst] using trunc_lt_length (by omega) hr
        · simpa [sumEst] using estTokens_take (by omega) hr
      · refine ⟨0, Nat.zero_le _, Or.inl ⟨?_, Or.inr ?_⟩⟩
        · simp only [packParts, if_pos hgt, if_neg hr]
          simp
        · simp only [List.take_zero, sumEst]
          simp only [List.map_nil, List.sum_nil]
          omega
    · obtain ⟨n, hn, hcase⟩ := ih (total + estTokens c) (by omega)
      have hpack : packParts T (c :: rest) total =
          c :: packParts T rest (total + estTokens c) := by
        simp only [packParts, if_neg hgt]
      have hsum : ∀ m, total + sumEst (c :: rest.take m) =
          (total + estTokens c) + sumEst (rest.take m) := by
        intro m
        rw [sumEst_cons]
        omega
      rcases hcase with ⟨heq, hor⟩ | ⟨c', hg, hpos, heq, hlt, hest⟩
      · refine ⟨n + 1, by simpa using hn, Or.inl ⟨?_, ?_⟩⟩
        · rw [hpack, heq, List.take_succ_cons]
        · rcases hor with h1 | h2
          · exact Or.inl (by simp [h1])
          · exact Or.inr (by rw [List.take_succ_cons, hsum n]; exact h2)
      · refine ⟨n + 1, by simpa using hn, Or.inr ⟨c', ?_, ?_, ?_, ?_, ?_⟩⟩
        · simpa using hg
        · rw [List.take_succ_cons, hsum n]; exact hpos
        · rw [hpack, heq, List.take_succ_cons, hsum n]
          simp
        · rw [List.take_succ_cons, hsum n]; exact hlt
        · rw [List.take_succ_cons, hsum n]; exact hest

/-- Claim C1: for every results sequence and every token budget `T`, the
packed context `context_parts` of `summarize_themes` satisfies the budget
`Σ max(1, len(part) // 4) ≤ T`; it consists of the highest-ranked
survivor fragments taken greedily in rank order, and when a fragment
would overflow the budget only a strict initial segment of it, sized to
exactly fill the remaining budget (so the packed total equals `T`), is
included, never its full text, after which packing stops. -/
theorem packing_token_budget (rs : List Chunk) (T : ℕ) :
    sumEst (contextParts rs T) ≤ T ∧
    ∃ n, n ≤ (packInput rs).length ∧
      ((contextParts rs T = (packInput rs).take n ∧
          (n = (packInput rs).length ∨ sumEst ((packInput rs).take n) = T))
       ∨ (∃ c, (packInput rs)[n]? = some c ∧
            0 < T - sumEst ((packInput rs).take n) ∧
            contextParts rs T = (packInput rs).take n ++
              [c.take ((T - sumEst ((packInput rs).take n)) * 4)] ∧
            (T - sumEst ((packInput rs).take n)) * 4 < c.length ∧
            sumEst (contextParts rs T) = T)) := by
  constructor
  · have := packParts_est_le T (packInput rs) 0 (Nat.zero_le T)
    simpa [contextParts] using this
  · obtain ⟨n, hn, hcase⟩ := packParts_shape T (packInput rs) 0 (Nat.zero_le T)
    simp only [Nat.zero_add] at hcase
    rcases hcase with ⟨heq, hor⟩ | ⟨c, hg, hpos, heq, hlt, hest⟩
    · exact ⟨n, hn, Or.inl ⟨heq, hor⟩⟩
    · refine ⟨n, hn, Or.inr ⟨c, hg, hpos, heq, hlt, ?_⟩⟩
      rw [show contextParts rs T = packParts T (packInput rs) 0 from rfl, heq,
        sumEst_append, sumEst_cons, sumEst_nil, hest]
      omega

/-! ### Concrete test data and branch lemmas for `summarize_themes` -/

/-- A result whose similarity 0.1 is below both thresholds. -/
def lowChunk : Chunk := ⟨some "hello", some ⟨some 0.1, some "doc"⟩⟩

/-- A result whose similarity 0.9 passes both thresholds. -/
def hiChunk : Chunk :=
  ⟨some "hello world this is long enough", some ⟨some 0.9, some "doc1"⟩⟩

/-- A result whose similarity 0.3 lies between the two thresholds. -/
def midChunk : Chunk := ⟨some "hello", some ⟨some 0.3, some "doc"⟩⟩

theorem filteredResults_lowChunk : filteredResults [lowChunk] = [] := by
  unfold filteredResults
  rw [List.filter_eq_nil_iff]
  intro a ha
  rw [List.mem_singleton] at ha
  subst ha
  simp only [similarityThreshold, simOf, lowChunk, decide_eq_true_eq]
  norm_num

theorem filteredResults_hiChunk : filteredResults [hiChunk] = [hiChunk] := by
  rw [show filteredResults [hiChunk] =
      List.filter _ [hiChunk] from rfl, List.filter_eq_self]
  intro a ha
  rw [List.mem_singleton] at ha
  subst ha
  simp only [similarityThreshold, simOf, hiChunk, decide_eq_true_eq]
  norm_num

theorem contextParts_hiChunk_800 :
    contextParts [hiChunk] 800 = [(contentOf hiChunk).data] := by
  unfold contextParts packInput sortedResults
  rw [filteredResults_hiChunk, List.mergeSort_singleton]
  rfl

theorem contextParts_hiChunk_0 : contextParts [hiChunk] 0 = [] := by
  unfold contextParts packInput sortedResults
  rw [filteredResults_hiChunk, List.mergeSort_singleton]
  rfl

/-- A non-empty packed context forces a non-empty input, hence non-empty
survivor and source lists. -/
theorem nonempty_of_contextParts {rs : List Chunk} {mt : ℕ}
    (hp : contextParts rs mt ≠ []) :
    rs ≠ [] ∧ filteredResults rs ≠ [] ∧ usedSources rs ≠ [] := by
  have h1 : packInput rs ≠ [] := by
    intro h
    exact hp (by simp [contextParts, h, packParts])
  have h2 : (sortedResults rs).take top_n ≠ [] := by
    intro h
    exact h1 (by simp [packInput, h])
  have h3 : filteredResults rs ≠ [] := by
    intro h
    apply h2
    rw [List.take_eq_nil_iff]
    exact Or.inr (by simp [sortedResults, h])
  refine ⟨?_, h3, ?_⟩
  · intro h
    exact h3 (by simp [filteredResults, h])
  · intro h
    exact h2 (by simpa [usedSources, List.map_eq_nil_iff] using h)

theorem summarize_below_threshold {rs : List Chunk} (q : String) (mt : ℕ)
    (llm : LLMResp) (hne : rs ≠ []) (hf : filteredResults rs = []) :
    summarize_themes rs q mt llm =
      ⟨"No relevant information found above similarity threshold.", some []⟩ := by
  have e1 : rs.isEmpty = false := by simp [hne]
  have e2 : (filteredResults rs).isEmpty = true := by simp [hf]
  simp [summarize_themes, summarizeCatchAll, summarizeBody, e1, e2]

theorem summarize_no_parts {rs : List Chunk} (q : String) (mt : ℕ)
    (llm : LLMResp) (hf : filteredResults rs ≠ [])
    (hp : contextParts rs mt = []) :
    summarize_themes rs q mt llm = ⟨couldNotProcessMsg, some []⟩ := by
  have hne : rs ≠ [] := by
    intro h
    exact hf (by simp [filteredResults, h])
  have e1 : rs.isEmpty = false := by simp [hne]
  have e2 : (filteredResults rs).isEmpty = false := by simp [hf]
  have e3 : (contextParts rs mt).isEmpty = true := by simp [hp]
  simp [summarize_themes, summarizeCatchAll, summarizeBody, e1, e2, e3,
    couldNotProcessMsg]

theorem summarize_raise {rs : List Chunk} (q : String) (mt : ℕ) (msg : String)
    (hp : contextParts rs mt ≠ []) :
    summarize_themes rs q mt (.raise msg) =
      ⟨apiFallbackAnswer, some (usedSources rs)⟩ := by
  obtain ⟨hne, hf, _⟩ := nonempty_of_contextParts hp
  have e1 : rs.isEmpty = false := by simp [hne]
  have e2 : (filteredResults rs).isEmpty = false := by simp [hf]
  have e3 : (contextParts rs mt).isEmpty = false := by simp [hp]
  simp [summarize_themes, summarizeCatchAll, summarizeBody, e1, e2, e3,
    apiFallbackAnswer]

theorem summarize_success {rs : List Chunk} (q : String) (mt : ℕ) (a : String)
    (hp : contextParts rs mt ≠ []) :
    summarize_themes rs q mt (.ok (some a)) = ⟨format_response a, none⟩ := by
  obtain ⟨hne, hf, _⟩ := nonempty_of_contextParts hp
  have e1 : rs.isEmpty = false := by simp [hne]
  have e2 : (filteredResults rs).isEmpty = false := by simp [hf]
  have e3 : (contextParts rs mt).isEmpty = false := by simp [hp]
  simp [summarize_themes, summarizeCatchAll, summarizeBody, e1, e2, e3]

/-! ### Claims about `summarize_themes` -/

/-- Claim C5: the similarity threshold is exactly 0.35 when more than ten
results are given and exactly 0.2 otherwise; in particular it is 0.2 for
exactly ten results and 0.35 for eleven, and at similarity 0.3 the filter
keeps all of ten results but none of eleven — the policy switches strictly
at `len(results) > 10`. -/
theorem adaptive_threshold_policy :
    (∀ rs : List Chunk,
        similarityThreshold rs = if rs.length > 10 then 0.35 else 0.2) ∧
    similarityThreshold (List.replicate 10 midChunk) = 0.2 ∧
    similarityThreshold (List.replicate 11 midChunk) = 0.35 ∧
    filteredResults (List.replicate 10 midChunk) =
      List.replicate 10 midChunk ∧
    filteredResults (List.replicate 11 midChunk) = [] := by
  refine ⟨fun rs => rfl, ?_, ?_, ?_, ?_⟩
  · simp [similarityThreshold]
  · simp [similarityThreshold]
  · rw [show filteredResults (List.replicate 10 midChunk) =
        List.filter _ (List.replicate 10 midChunk) from rfl,
      List.filter_eq_self]
    intro a ha
    rw [List.mem_replicate] at ha
    rw [ha.2]
    simp only [similarityThreshold, simOf, midChunk, List.length_replicate,
      decide_eq_true_eq]
    norm_num
  · unfold filteredResults
    rw [List.filter_eq_nil_iff]
    intro a ha
    rw [List.mem_replicate] at ha
    rw [ha.2]
    simp only [similarityThreshold, simOf, midChunk, List.length_replicate,
      decide_eq_true_eq]
    norm_num

/-- Claim C2 counterexample: with a single candidate of similarity 0.1
(below the 0.2 threshold) the synthesizer returns the failure outcome
`"No relevant information found above similarity threshold."` with empty
sources instead of attempting a best-effort answer with the
highest-similarity result. -/
theorem below_threshold_no_besteffort :
    summarize_themes [lowChunk] "q" 800 (.ok (some "ans")) =
      ⟨"No relevant information found above similarity threshold.", some []⟩ ∧
    ([lowChunk] : List Chunk) ≠ [] := by
  constructor
  · have e2 : (filteredResults [lowChunk]).isEmpty = true := by
      simp [filteredResults_lowChunk]
    simp [summarize_themes, summarizeCatchAll, summarizeBody, e2]
  · simp

/-- Claim C2 (amended): when the input is non-empty but no result reaches
the similarity threshold, `summarize_themes` does not attempt an answer at
all — it returns the fixed failure outcome with empty sources, for every
query, budget and model behaviour. -/
theorem below_threshold_failure (rs : List Chunk) (q : String) (mt : ℕ)
    (llm : LLMResp) (hne : rs ≠ []) (hf : filteredResults rs = []) :
    summarize_themes rs q mt llm =
      ⟨"No relevant information found above similarity threshold.", some []⟩ :=
  summarize_below_threshold q mt llm hne hf

/-- Witness for the amended claim C2 at a concrete input. -/
theorem below_threshold_failure_witness :
    summarize_themes [lowChunk] "query" 5 (.raise "e") =
      ⟨"No relevant information found above similarity threshold.", some []⟩ :=
  below_threshold_failure [lowChunk] "query" 5 (.raise "e") (by simp)
    filteredResults_lowChunk

theorem usedSources_hiChunk : usedSources [hiChunk] = [⟨"doc1", 0.9⟩] := by
  unfold usedSources sortedResults
  rw [filteredResults_hiChunk, List.mergeSort_singleton]
  rfl

/-- Claim C3 counterexample: with one passing result and a zero token
budget, context assembly yields zero fragments and the outcome is the
`"Could not process any of the search results."` message — not the
dedicated no-fallback message of the model-failure handler, which is
unreachable because the model is never invoked without context. -/
theorem no_fallback_message_unreachable :
    summarize_themes [hiChunk] "q" 0 (.raise "boom") =
      ⟨couldNotProcessMsg, some []⟩ ∧
    couldNotProcessMsg ≠ noFallbackMsg ∧
    contextParts [hiChunk] 0 = [] := by
  refine ⟨?_, by decide, contextParts_hiChunk_0⟩
  exact summarize_no_parts "q" 0 (.raise "boom")
    (by simp [filteredResults_hiChunk]) contextParts_hiChunk_0

/-- Claim C3 (amended): when the model invocation fails after at least one
context fragment was assembled, the error is not propagated — the outcome's
answer is the formatted fallback text containing the `"API Error"` marker
and its sources list is the non-empty ranked survivor list.  When context
assembly yields zero fragments the model is never invoked and the outcome
is the `"Could not process any of the search results."` message with empty
sources (so the handler's dedicated no-fallback message is dead code). -/
theorem model_failure_fallback :
    (∀ (rs : List Chunk) (q : String) (mt : ℕ) (msg : String),
        contextParts rs mt ≠ [] →
        summarize_themes rs q mt (.raise msg) =
          ⟨apiFallbackAnswer, some (usedSources rs)⟩ ∧
        usedSources rs ≠ [] ∧
        strContains apiFallbackAnswer apiErrorMarker = true) ∧
    (∀ (rs : List Chunk) (q : String) (mt : ℕ) (llm : LLMResp),
        filteredResults rs ≠ [] → contextParts rs mt = [] →
        summarize_themes rs q mt llm = ⟨couldNotProcessMsg, some []⟩) := by
  constructor
  · intro rs q mt msg hp
    exact ⟨summarize_raise q mt msg hp,
      (nonempty_of_contextParts hp).2.2, rfl⟩
  · intro rs q mt llm hf hp
    exact summarize_no_parts q mt llm hf hp

/-- Witness for the amended claim C3 at concrete inputs: a model failure
with budget 800 falls back with non-null sources; with budget 0 the
packing-empty outcome is returned. -/
theorem model_failure_fallback_witness :
    summarize_themes [hiChunk] "q" 800 (.raise "x") =
      ⟨apiFallbackAnswer, some (usedSources [hiChunk])⟩ ∧
    summarize_themes [hiChunk] "q" 0 (.ok none) =
      ⟨couldNotProcessMsg, some []⟩ :=
  ⟨(model_failure_fallback.1 [hiChunk] "q" 800 "x"
      (by rw [contextParts_hiChunk_800]; simp)).1,
   model_failure_fallback.2 [hiChunk] "q" 0 (.ok none)
      (by simp [filteredResults_hiChunk]) contextParts_hiChunk_0⟩

/-- Claim C4, evaluated at the failing input: on a successful model call
the returned outcome carries `sources := none` (Python `None`,
`synthesis.py` line 146) even though the ranked survivor list
`used_sources` is non-empty — contradicting both the claim and the
function's own docstring. -/
theorem success_path_sources_none :
    summarize_themes [hiChunk] "q" 800 (.ok (some "An answer.")) =
      ⟨format_response "An answer.", none⟩ ∧
    usedSources [hiChunk] = [⟨"doc1", 0.9⟩] :=
  ⟨summarize_success "q" 800 "An answer."
      (by rw [contextParts_hiChunk_800]; simp),
   usedSources_hiChunk⟩

/-- Claim C10: `summarize_themes` is total at its interface — for every
input and model behaviour the body inside the outer `try` produces a
well-formed outcome dictionary (never an escaping exception), the function
returns exactly that outcome, and the outer catch-all handler would map
any escaping error `e` to the `"Error generating summary: …"` outcome with
empty sources. -/
theorem summarize_total_interface :
    (∀ (rs : List Chunk) (q : String) (mt : ℕ) (llm : LLMResp),
        ∃ o : Outcome, summarizeBody rs q mt llm = Except.ok o ∧
          summarize_themes rs q mt llm = o) ∧
    (∀ e : String, summarizeCatchAll (Except.error e) =
        ⟨"Error generating summary: " ++ e, some []⟩) := by
  refine ⟨fun rs q mt llm => ?_, fun e => rfl⟩
  obtain ⟨o, ho⟩ : ∃ o, summarizeBody rs q mt llm = Except.ok o := by
    unfold summarizeBody
    repeat' split
    all_goals exact ⟨_, rfl⟩
  exact ⟨o, ho, by simp [summarize_themes, summarizeCatchAll, ho]⟩

/-! ### Properties of the retriever -/

theorem dedupGo_mem {r : RawResult} :
    ∀ (xs : List RawResult) (seen : List String),
      r ∈ dedupGo seen xs → r ∈ xs ∧ r.content ∉ seen := by
  intro xs
  induction xs with
  | nil => intro seen h; simp [dedupGo] at h
  | cons x rest ih =>
    intro seen h
    by_cases hx : x.content ∈ seen
    · rw [show dedupGo seen (x :: rest) = dedupGo seen rest from
        by rw [dedupGo, if_pos hx]] at h
      obtain ⟨h1, h2⟩ := ih seen h
      exact ⟨List.mem_cons_of_mem x h1, h2⟩
    · rw [show dedupGo seen (x :: rest) =
          x :: dedupGo (x.content :: seen) rest from
        by rw [dedupGo, if_neg hx]] at h
      rcases List.mem_cons.1 h with h' | h'
      · subst h'
        exact ⟨List.mem_cons_self r rest, hx⟩
      · obtain ⟨h1, h2⟩ := ih (x.content :: seen) h'
        exact ⟨List.mem_cons_of_mem x h1,
          fun hc => h2 (List.mem_cons_of_mem _ hc)⟩

theorem dedupGo_contents_nodup :
    ∀ (xs : List RawResult) (seen : List String),
      ((dedupGo seen xs).map (fun r => r.content)).Nodup := by
  intro xs
  induction xs with
  | nil => intro seen; simp [dedupGo]
  | cons x rest ih =>
    intro seen
    by_cases hx : x.content ∈ seen
    · rw [show dedupGo seen (x :: rest) = dedupGo seen rest from
        by rw [dedupGo, if_pos hx]]
      exact ih seen
    · rw [show dedupGo seen (x :: rest) =
          x :: dedupGo (x.content :: seen) rest from
        by rw [dedupGo, if_neg hx]]
      rw [List.map_cons, List.nodup_cons]
      refine ⟨?_, ih (x.content :: seen)⟩
      intro hc
      obtain ⟨r', hr', hcr⟩ := List.mem_map.1 hc
      have := (dedupGo_mem rest (x.content :: seen) hr').2
      exact this (by rw [hcr]; exact List.mem_cons_self _ _)

theorem dedupGo_first_occurrence :
    ∀ (xs : List RawResult) (seen : List String) (r : RawResult),
      r ∈ dedupGo seen xs →
      xs.find? (fun x => x.content == r.content) = some r := by
  intro xs
  induction xs with
  | nil => intro seen r h; simp [dedupGo] at h
  | cons x rest ih =>
    intro seen r h
    by_cases hx : x.content ∈ seen
    · rw [show dedupGo seen (x :: rest) = dedupGo seen rest from
        by rw [dedupGo, if_pos hx]] at h
      have hne : x.content ≠ r.content := by
        intro hc
        exact (dedupGo_mem rest seen h).2 (hc ▸ hx)
      rw [List.find?_cons_of_neg _ (by simpa using hne)]
      exact ih seen r h
    · rw [show dedupGo seen (x :: rest) =
          x :: dedupGo (x.content :: seen) rest from
        by rw [dedupGo, if_neg hx]] at h
      rcases List.mem_cons.1 h with h' | h'
      · subst h'
        exact List.find?_cons_of_pos _ (by simp)
      · have hne : x.content ≠ r.content := by
          intro hc
          exact (dedupGo_mem rest (x.content :: seen) h').2
            (hc ▸ List.mem_cons_self _ _)
        rw [List.find?_cons_of_neg _ (by simpa using hne)]
        exact ih (x.content :: seen) r h'

theorem dedupGo_covers :
    ∀ (xs : List RawResult) (seen : List String) (r : RawResult), r ∈ xs →
      r.content ∈ seen ∨
      ∃ r', r' ∈ dedupGo seen xs ∧ r'.content = r.content := by
  intro xs
  induction xs with
  | nil => intro seen r h; simp at h
  | cons x rest ih =>
    intro seen r h
    by_cases hx : x.content ∈ seen
    · rw [show dedupGo seen (x :: rest) = dedupGo seen rest from
        by rw [dedupGo, if_pos hx]]
      rcases List.mem_cons.1 h with h' | h'
      · subst h'; exact Or.inl hx
      · exact ih seen r h'
    · rw [show dedupGo seen (x :: rest) =
          x :: dedupGo (x.content :: seen) rest from
        by rw [dedupGo, if_neg hx]]
      rcases List.mem_cons.1 h with h' | h'
      · subst h'
        exact Or.inr ⟨r, List.mem_cons_self _ _, rfl⟩
      · rcases ih (x.content :: seen) r h' with hmem | ⟨r', hr', hcr⟩
        · rcases List.mem_cons.1 hmem with he | he
          · exact Or.inr ⟨x, List.mem_cons_self _ _, he.symm⟩
          · exact Or.inl he
        · exact Or.inr ⟨r', List.mem_cons_of_mem x hr', hcr⟩

theorem dedupGo_idem :
    ∀ (xs : List RawResult) (seen : List String),
      dedupGo seen (dedupGo seen xs) = dedupGo seen xs := by
  intro xs
  induction xs with
  | nil => intro seen; rfl
  | cons x rest ih =>
    intro seen
    by_cases hx : x.content ∈ seen
    · rw [show dedupGo seen (x :: rest) = dedupGo seen rest from
        by rw [dedupGo, if_pos hx]]
      exact ih seen
    · rw [show dedupGo seen (x :: rest) =
          x :: dedupGo (x.content :: seen) rest from
        by rw [dedupGo, if_neg hx]]
      rw [show dedupGo seen (x :: dedupGo (x.content :: seen) rest) =
          x :: dedupGo (x.content :: seen) (dedupGo (x.content :: seen) rest)
        from by rw [dedupGo, if_neg hx]]
      rw [ih (x.content :: seen)]

/-- Claim C6: when the Vector Store query returns zero matches (including
a missing or empty collection), `search_similar` of `search.py` returns
the empty result list, not an error value. -/
theorem zero_matches_empty_list :
    ∀ (q : String) (source : Option String) (n : ℕ),
      search_similar q source n [] = SearchOut.results [] :=
  fun _ _ _ => rfl

/-- Claim C9: the retriever's dedup keeps exactly one result per distinct
content — the first (highest-ranked) occurrence — so `search_similar`
returns pairwise-distinct contents; the dedup is idempotent, every input
content is represented, and each kept record is the first of its content. -/
theorem dedup_first_occurrence_policy :
    (∀ (q : String) (n : ℕ) (store : List RawResult) (rs : List FmtResult),
        search_similar q none n store = SearchOut.results rs →
        (rs.map (fun r => r.content)).Nodup) ∧
    (∀ xs, dedupByContent (dedupByContent xs) = dedupByContent xs) ∧
    (∀ xs r, r ∈ dedupByContent xs →
        xs.find? (fun x => x.content == r.content) = some r) ∧
    (∀ xs r, r ∈ xs →
        ∃ r', r' ∈ dedupByContent xs ∧ r'.content = r.content) := by
  refine ⟨?_, fun xs => dedupGo_idem xs [], fun xs => dedupGo_first_occurrence xs [],
    fun xs r h => ?_⟩
  · intro q n store rs h
    unfold search_similar at h
    by_cases hs : store.isEmpty
    · rw [if_pos hs] at h
      cases h
      simp
    · rw [if_neg hs] at h
      cases h
      rw [List.map_map]
      have : (fun r : RawResult => r.content) =
          (fun r : FmtResult => r.content) ∘ formatResult := rfl
      rw [← this]
      exact dedupGo_contents_nodup store []
  · rcases dedupGo_covers xs [] r h with hmem | h'
    · simp at hmem
    · exact h'

/-- Two store records with identical content and different similarity,
used to witness the dedup claims. -/
def rawA : RawResult := ⟨"same content", ⟨some "a", some 0, some 2⟩, 0.9⟩

/-- See `rawA`. -/
def rawB : RawResult := ⟨"same content", ⟨some "b", some 1, some 2⟩, 0.8⟩

/-- Witness for claim C9: of two identically-worded results the search
keeps exactly the first, and the returned contents are pairwise
distinct. -/
theorem dedup_first_occurrence_witness :
    (([formatResult rawA] : List FmtResult).map
      (fun r => r.content)).Nodup :=
  dedup_first_occurrence_policy.1 "q" 10 [rawA, rawB] [formatResult rawA] rfl

/-- A store record whose source is `"abc"`, used for the source-filter
claims. -/
def rawAbc : RawResult := ⟨"c", ⟨some "abc", some 0, some 1⟩, 0.5⟩

/-- Claim C7 counterexample: with the provided source argument `""` the
retriever applies no filtering at all (`if source:` is falsy for the empty
string), so a result whose stored source `"abc"` does not case-insensitively
equal `""` is nevertheless returned. -/
theorem empty_source_disables_filter :
    search_similar "q" (some "") 10 [rawAbc] =
      SearchOut.results [⟨"c", ⟨"abc", 0.5, 0, 1⟩⟩] ∧
    (pyLower "abc" == pyLower "") = false := by
  exact ⟨rfl, rfl⟩

/-- Claim C7 (amended): for a provided non-empty source argument,
filtering is applied after retrieval — on the already-retrieved store
results, not as a store-level predicate — and keeps exactly those results
whose stored source case-insensitively equals the given source; the
returned count may therefore be smaller than `n_results`, including zero.
A provided empty-string source disables filtering. -/
theorem source_filter_after_retrieval :
    (∀ (store : List RawResult) (s : String) (r : RawResult),
        r ∈ filterBySource store s ↔
          r ∈ store ∧ pyLower (r.metadata.source.getD "") = pyLower s) ∧
    (∀ (q : String) (n : ℕ) (store : List RawResult) (s : String),
        s ≠ "" → store ≠ [] →
        search_similar q (some s) n store =
          SearchOut.results
            ((dedupByContent (filterBySource store s)).map formatResult)) ∧
    (search_similar "q" (some "zzz") 10 [rawAbc] = SearchOut.results [] ∧
      (0 : ℕ) < 10) := by
  refine ⟨?_, ?_, rfl, by norm_num⟩
  · intro store s r
    unfold filterBySource sourceMatches
    rw [List.mem_filter]
    simp
  · intro q n store s hs hne
    unfold search_similar
    rw [if_neg (by simp [hne])]
    show SearchOut.results ((dedupByContent
        (if s ≠ "" then filterBySource store s else store)).map formatResult) = _
    rw [if_pos hs]

/-- Witness for the amended claim C7: filtering with the non-empty source
`"ABC"` is the post-retrieval case-insensitive filter (it keeps the record
with stored source `"abc"`), and the membership characterisation holds at
that record. -/
theorem source_filter_witness :
    search_similar "q" (some "ABC") 10 [rawAbc] =
      SearchOut.results
        ((dedupByContent (filterBySource [rawAbc] "ABC")).map formatResult) ∧
    (rawAbc ∈ filterBySource [rawAbc] "ABC" ↔
      rawAbc ∈ [rawAbc] ∧
        pyLower (rawAbc.metadata.source.getD "") = pyLower "ABC") :=
  ⟨source_filter_after_retrieval.2.1 "q" 10 [rawAbc] "ABC" (by decide)
      (by simp),
   source_filter_after_retrieval.1 [rawAbc] "ABC" rawAbc⟩

/-! ### Properties of the store-level search -/

theorem buildResults_sim :
    ∀ (docs : List String) (i : ℕ) (dists : List ℚ)
      (metas : List (Option VSMeta)) (l : List VSResult),
      buildResults dists metas docs i = .ok l →
      ∀ v ∈ l, ∃ j, docs[j]? = some v.content ∧
        ((dists = [] ∧ v.similarity = 0) ∨
         (∃ d, dists[i + j]? = some d ∧ v.similarity = 1 - d)) := by
  intro docs
  induction docs with
  | nil =>
    intro i dists metas l h v hv
    rw [buildResults] at h
    cases h
    simp at hv
  | cons doc rest ih =>
    intro i dists metas l h v hv
    rw [buildResults] at h
    by_cases hd : dists.isEmpty
    · rw [if_pos hd] at h
      cases hrec : buildResults dists metas rest (i + 1) with
      | error e => rw [hrec] at h; cases h
      | ok restL =>
        rw [hrec] at h
        cases h
        rcases List.mem_cons.1 hv with h' | h'
        · subst h'
          exact ⟨0, by simp, Or.inl ⟨List.isEmpty_iff.1 hd, rfl⟩⟩
        · obtain ⟨j, hj, hcase⟩ := ih (i + 1) dists metas restL hrec v h'
          refine ⟨j + 1, by simpa using hj, ?_⟩
          rcases hcase with hl | ⟨d, hd', he⟩
          · exact Or.inl hl
          · refine Or.inr ⟨d, ?_, he⟩
            rw [show i + (j + 1) = (i + 1) + j by omega]
            exact hd'
    · rw [if_neg hd] at h
      cases hdi : dists[i]? with
      | none => rw [hdi] at h; cases h
      | some d =>
        rw [hdi] at h
        cases hrec : buildResults dists metas rest (i + 1) with
        | error e => rw [hrec] at h; cases h
        | ok restL =>
          rw [hrec] at h
          cases h
          rcases List.mem_cons.1 hv with h' | h'
          · subst h'
            exact ⟨0, by simp, Or.inr ⟨d, by simpa using hdi, rfl⟩⟩
          · obtain ⟨j, hj, hcase⟩ := ih (i + 1) dists metas restL hrec v h'
            refine ⟨j + 1, by simpa using hj, ?_⟩
            rcases hcase with hl | ⟨d', hd', he⟩
            · exact Or.inl hl
            · refine Or.inr ⟨d', ?_, he⟩
              rw [show i + (j + 1) = (i + 1) + j by omega]
              exact hd'

/-- Claim C8 counterexample and amended claim share this evaluation: a
batch whose single cosine distance is 1.5 yields the similarity
`1 - 1.5 = -0.5`. -/
theorem vsSearch_eval :
    vsSearchSimilar (some ⟨some [["a"]], some [[1.5]], some [[]]⟩) =
      VSOut.results [⟨"a", "unknown", 1 - 1.5⟩] := by
  show (match buildResults [(1.5 : ℚ)] [] ["a"] 0 with
    | .error e => VSOut.error ("Search failed: " ++ e)
    | .ok resultsList =>
      if resultsList.isEmpty then
        VSOut.error "No relevant content found for the query."
      else
        VSOut.results (resultsList.mergeSort
          (fun a b => decide (b.similarity ≤ a.similarity)))) = _
  have hb : buildResults [(1.5 : ℚ)] [] ["a"] 0 =
      .ok [⟨"a", "unknown", 1 - 1.5⟩] := by
    rw [buildResults, if_neg (by simp)]
    rfl
  rw [hb]
  show VSOut.results (List.mergeSort [⟨"a", "unknown", 1 - 1.5⟩] _) = _
  rw [List.mergeSort_singleton]

/-- Claim C8 counterexample: the store-level search does not clamp
similarity to `[0, 1]` — with cosine distance 1.5 it returns the negative
similarity `1 - 1.5 < 0`. -/
theorem similarity_unclamped :
    vsSearchSimilar (some ⟨some [["a"]], some [[1.5]], some [[]]⟩) =
      VSOut.results [⟨"a", "unknown", 1 - 1.5⟩] ∧
    (1 : ℚ) - 1.5 < 0 :=
  ⟨vsSearch_eval, by norm_num⟩

/-- Claim C8 (amended): every record retained by the store-level search
carries the similarity `1 − distance` of its document (or `0.0` when the
distances list is empty), with no normalization against the batch's own
distances and no clamping — the value may lie outside `[0, 1]`. -/
theorem similarity_one_minus_distance :
    (∀ (docs : List String) (i : ℕ) (dists : List ℚ)
        (metas : List (Option VSMeta)) (l : List VSResult),
        buildResults dists metas docs i = .ok l →
        ∀ v ∈ l, ∃ j, docs[j]? = some v.content ∧
          ((dists = [] ∧ v.similarity = 0) ∨
           (∃ d, dists[i + j]? = some d ∧ v.similarity = 1 - d))) ∧
    (∀ (docs0 : List String) (docsT : List (List String)) (dists0 : List ℚ)
        (distsT : List (List ℚ)) (metas0 : List (Option VSMeta))
        (metasT : List (List (Option VSMeta))) (rs : List VSResult),
        vsSearchSimilar
            (some ⟨some (docs0 :: docsT), some (dists0 :: distsT),
              some (metas0 :: metasT)⟩) = VSOut.results rs →
        ∀ v ∈ rs, ∃ j : ℕ, docs0[j]? = some v.content ∧
          ((dists0 = [] ∧ v.similarity = 0) ∨
           (∃ d, dists0[j]? = some d ∧ v.similarity = 1 - d))) := by
  refine ⟨buildResults_sim, ?_⟩
  intro docs0 docsT dists0 distsT metas0 metasT rs h v hv
  have h' : (if docs0.isEmpty then
      VSOut.error "No matching documents found"
    else
      match buildResults dists0 metas0 docs0 0 with
      | .error e => VSOut.error ("Search failed: " ++ e)
      | .ok resultsList =>
        if resultsList.isEmpty then
          VSOut.error "No relevant content found for the query."
        else
          VSOut.results (resultsList.mergeSort
            (fun a b => decide (b.similarity ≤ a.similarity)))) =
      VSOut.results rs := h
  by_cases hd0 : docs0.isEmpty
  · rw [if_pos hd0] at h'; cases h'
  · rw [if_neg hd0] at h'
    cases hb : buildResults dists0 metas0 docs0 0 with
    | error e => rw [hb] at h'; cases h'
    | ok resultsList =>
      rw [hb] at h'
      have h'' : (if resultsList.isEmpty = true then
          VSOut.error "No relevant content found for the query."
        else VSOut.results (resultsList.mergeSort
          (fun a b => decide (b.similarity ≤ a.similarity)))) =
          VSOut.results rs := h'
      by_cases hri : resultsList.isEmpty
      · rw [if_pos hri] at h''; cases h''
      · rw [if_neg hri] at h''
        cases h''
        have hv' : v ∈ resultsList := List.mem_mergeSort.1 hv
        obtain ⟨j, hj, hcase⟩ := buildResults_sim docs0 0 dists0 metas0
          resultsList hb v hv'
        exact ⟨j, hj, by simpa using hcase⟩

/-- Witness for the amended claim C8 at the concrete batch with distance
1.5: the retained record's similarity is exactly `1 - 1.5`. -/
theorem similarity_one_minus_distance_witness :
    ∃ j : ℕ, (["a"] : List String)[j]? = some "a" ∧
      (([(1.5 : ℚ)] = [] ∧ (1 : ℚ) - 1.5 = 0) ∨
       (∃ d, [(1.5 : ℚ)][j]? = some d ∧ (1 : ℚ) - 1.5 = 1 - d)) :=
  similarity_one_minus_distance.2 ["a"] [] [(1.5 : ℚ)] [] [] []
    [⟨"a", "unknown", 1 - 1.5⟩] vsSearch_eval
    ⟨"a", "unknown", 1 - 1.5⟩ (by simp)

end Chatbot
